import Mathlib

/-!
Shallow embedding of `src/lclstreamer/frontend/data_serializers/file_formats.py`
(the `Hdf5BinarySerializer` class).

Modelling conventions:

* A numpy array (`StrFloatIntNDArray`) is modelled by `NDArray`: the size of
  axis 0 (`shape0`), the trailing dimensions (`restShape`), the dtype (a
  string), and an abstract flat payload.  The arrays handled by the serializer
  are stacked along axis 0, so they always have at least one dimension and
  `value.shape[0]` is total; indexing `data_block[0]` is only defined when
  `shape0 > 0` (numpy raises `IndexError` otherwise), which the writer models
  explicitly.
* A Python dict is modelled as an ordered association list, preserving the
  insertion order that Python dict iteration follows.
* `sys.exit(1)` calls are modelled as `Except.error` values; the HDF5
  container produced for one batch is modelled as the ordered list of
  datasets created in it (`Blob`), since the byte-level HDF5 encoding is
  performed by the external `h5py` library.
* The compression keyword dictionaries built in `__init__` are modelled by
  the inductive `CompressionOpts`, one constructor per distinct dictionary
  shape (`empty` models the `{}` of the final `else` branch).
-/

/-- An N-dimensional array: axis-0 length, trailing dimensions, dtype and an
abstract flat payload of element data. -/
structure NDArray where
  shape0 : Nat
  restShape : List Nat
  dtype : String
  payload : List Int
deriving DecidableEq

/-- The full shape of an array, `array.shape` in numpy. -/
def NDArray.shape (a : NDArray) : List Nat := a.shape0 :: a.restShape

/-- The compression keyword-argument dictionaries that `__init__` can store in
`self._compression_options`. -/
inductive CompressionOpts where
  | gzip (level : Int) (shuffle : Bool)
  | bitshuffle (cname : String) (clevel : Int)
  | zfp
  | empty
deriving DecidableEq

/-- The `Hdf5BinarySerializer` section of the configuration parameters. -/
structure Hdf5BinarySerializerParameters where
  compression : String
  compression_level : Int
  fields : List (String × String)
deriving DecidableEq

/-- The `DataSerializerParameters` record: the `Hdf5BinarySerializer` section
may be missing (`None`). -/
structure DataSerializerParameters where
  Hdf5BinarySerializer : Option Hdf5BinarySerializerParameters
deriving DecidableEq

/-- The fatal conditions the serializer can signal.  `configurationError` and
the two validation errors model the `log.error` + `sys.exit(1)` paths;
`indexError` models the uncaught numpy `IndexError` raised by `data_block[0]`
on an array with an empty axis 0. -/
inductive SerializerError where
  | configurationError
  | inconsistentDepth
  | unmappedFields (names : List String)
  | indexError
deriving DecidableEq

/-- The state of a constructed serializer instance: the resolved
`self._compression_options` and `self._hdf5_fields`. -/
structure Hdf5BinarySerializer where
  compressionOptions : CompressionOpts
  hdf5Fields : List (String × String)
deriving DecidableEq

/-- The if/elif chain of `__init__` that turns the configured compression
string and level into `self._compression_options`. -/
def resolveCompressionOptions (compression : String) (level : Int) : CompressionOpts :=
  if compression = "gzip" then .gzip level false
  else if compression = "gzip_with_shuffle" then .gzip level true
  else if compression = "bitshuffle_with_lz4" then .bitshuffle "lz4" level
  else if compression = "bitshuffle_with_zstd" then .bitshuffle "zstd" level
  else if compression = "zfp" then .zfp
  else .empty

/-- `Hdf5BinarySerializer.__init__`: fails when the configuration section is
missing, otherwise stores the resolved compression options and the field
mapping. -/
def Hdf5BinarySerializer.init (parameters : DataSerializerParameters) :
    Except SerializerError Hdf5BinarySerializer :=
  match parameters.Hdf5BinarySerializer with
  | none => .error .configurationError
  | some cfg =>
      .ok ⟨resolveCompressionOptions cfg.compression cfg.compression_level, cfg.fields⟩

/-- One batch: an ordered mapping from field name to an array or an explicit
absence marker (`None`). -/
abbrev Batch := List (String × Option NDArray)

/-- One dataset created by `fh.create_dataset(...)`: name, shape, dtype,
chunks, the compression keyword arguments, and the written data. -/
structure Dataset where
  name : String
  shape : List Nat
  dtype : String
  chunks : List Nat
  compression : CompressionOpts
  data : List Int
deriving DecidableEq

/-- The serialized container for one batch, as the ordered list of datasets
created in it. -/
abbrev Blob := List Dataset

/-- The list comprehension `depth_of_data_blocks`: `value.shape[0]` for every
non-`None` value of the batch, in batch iteration order. -/
def depthOfDataBlocks (data : Batch) : List Nat :=
  data.filterMap (fun kv => kv.2.map NDArray.shape0)

/-- Python dict lookup on the field mapping: `self._hdf5_fields[key]`, `none`
when the key is not in the mapping. -/
def lookupField : List (String × String) → String → Option String
  | [], _ => none
  | (k, v) :: rest, key => if key = k then some v else lookupField rest key

/-- The set difference `data.keys() - self._hdf5_fields.keys()`
(`mismatching_entries`), as the list of batch keys with no entry in the field
mapping. -/
def mismatchingEntries (data : Batch) (fields : List (String × String)) : List String :=
  (data.map Prod.fst).filter (fun k => (lookupField fields k).isNone)

/-- The dataset-creation loop of `__call__`: for each batch entry, in batch
iteration order, if the key is in the field mapping and the value is not
`None`, create one dataset named by the mapped output name, with the array's
full shape and dtype, chunks `(1,) + data_block[0].shape`, the instance's
compression options, and the array's contents.  Computing
`data_block[0].shape` raises `IndexError` when axis 0 is empty. -/
def writeDatasets (fields : List (String × String)) (opts : CompressionOpts) :
    Batch → Except SerializerError Blob
  | [] => .ok []
  | (key, val) :: rest =>
    match lookupField fields key, val with
    | some outName, some arr =>
        if arr.shape0 = 0 then .error .indexError
        else
          (writeDatasets fields opts rest).map
            (fun blob =>
              ⟨outName, arr.shape, arr.dtype, 1 :: arr.restShape, opts, arr.payload⟩ :: blob)
    | _, _ => writeDatasets fields opts rest

/-- The body of the per-batch loop of `Hdf5BinarySerializer.__call__`: the
depth-consistency check, then the unmapped-keys check, then the dataset
writes into a fresh in-memory container. -/
def Hdf5BinarySerializer.processBatch (self : Hdf5BinarySerializer) (data : Batch) :
    Except SerializerError Blob :=
  if (depthOfDataBlocks data).dedup.length ≠ 1 then .error .inconsistentDepth
  else if (mismatchingEntries data self.hdf5Fields).length ≠ 0 then
    .error (.unmappedFields (mismatchingEntries data self.hdf5Fields))
  else writeDatasets self.hdf5Fields self.compressionOptions data

/-- `Hdf5BinarySerializer.__call__` over a finite stream: one blob per batch,
in order; a failing batch halts the pipeline. -/
def Hdf5BinarySerializer.call (self : Hdf5BinarySerializer) :
    List Batch → Except SerializerError (List Blob)
  | [] => .ok []
  | data :: rest =>
    match self.processBatch data with
    | .error e => .error e
    | .ok blob =>
      match self.call rest with
      | .error e => .error e
      | .ok blobs => .ok (blob :: blobs)

/-- The output dataset names that the writer produces for a batch: the mapped
names of the present, mapped entries, in batch iteration order. -/
def presentMappedNames (fields : List (String × String)) (data : Batch) : List String :=
  data.filterMap (fun kv =>
    match kv.2 with
    | some _ => lookupField fields kv.1
    | none => none)

deriving instance DecidableEq for Except

lemma mem_depthOfDataBlocks {data : Batch} {k : String} {a : NDArray}
    (h : (k, some a) ∈ data) : a.shape0 ∈ depthOfDataBlocks data :=
  List.mem_filterMap.mpr ⟨(k, some a), h, rfl⟩

lemma of_mem_depthOfDataBlocks {data : Batch} {d : Nat}
    (h : d ∈ depthOfDataBlocks data) : ∃ k a, (k, some a) ∈ data ∧ a.shape0 = d := by
  obtain ⟨⟨k, v⟩, hmem, hv⟩ := List.mem_filterMap.mp h
  cases v with
  | none => simp at hv
  | some a =>
    simp only [Option.map_some'] at hv
    exact ⟨k, a, hmem, Option.some_injective _ hv⟩

lemma dedup_length_ne_one_of_mem_ne {l : List Nat} {x y : Nat}
    (hx : x ∈ l) (hy : y ∈ l) (hne : x ≠ y) : l.dedup.length ≠ 1 := by
  intro h
  obtain ⟨a, ha⟩ := List.length_eq_one.mp h
  have hx2 : x ∈ l.dedup := List.mem_dedup.mpr hx
  have hy2 : y ∈ l.dedup := List.mem_dedup.mpr hy
  rw [ha] at hx2 hy2
  simp only [List.mem_singleton] at hx2 hy2
  exact hne (hx2.trans hy2.symm)

lemma dedup_length_one_of_all_eq {l : List Nat} {c : Nat}
    (hc : c ∈ l) (hall : ∀ x ∈ l, x = c) : l.dedup.length = 1 := by
  have hsub : ∀ x ∈ l.dedup, x = c := fun x hx => hall x (List.mem_dedup.mp hx)
  have hc2 : c ∈ l.dedup := List.mem_dedup.mpr hc
  rcases hd : l.dedup with _ | ⟨a, t⟩
  · rw [hd] at hc2; simp at hc2
  · rcases t with _ | ⟨b, t2⟩
    · rfl
    · exfalso
      have hnd : (a :: b :: t2).Nodup := hd ▸ List.nodup_dedup l
      have ha : a = c := hsub a (by rw [hd]; exact List.mem_cons_self a _)
      have hb : b = c := hsub b (by rw [hd]; exact List.mem_cons_of_mem _ (List.mem_cons_self b _))
      have hab : a ≠ b := by
        have h1 := (List.nodup_cons.mp hnd).1
        exact fun hEq => h1 (hEq ▸ List.mem_cons_self b t2)
      exact hab (ha.trans hb.symm)

lemma lookupField_isSome_of_mismatching_nil {data : Batch} {fields : List (String × String)}
    (h : mismatchingEntries data fields = []) {k : String} {v : Option NDArray}
    (hm : (k, v) ∈ data) : (lookupField fields k).isSome := by
  cases hopt : lookupField fields k with
  | some w => rfl
  | none =>
    exfalso
    have hk : k ∈ mismatchingEntries data fields := by
      unfold mismatchingEntries
      refine List.mem_filter.mpr ⟨List.mem_map.mpr ⟨(k, v), hm, rfl⟩, ?_⟩
      simp [hopt]
    rw [h] at hk
    simp at hk

lemma writeDatasets_ok {fields : List (String × String)} {opts : CompressionOpts}
    {data : Batch} (h : ∀ k a, (k, some a) ∈ data → a.shape0 ≠ 0) :
    ∃ blob, writeDatasets fields opts data = .ok blob := by
  induction data with
  | nil => exact ⟨[], rfl⟩
  | cons kv rest ih =>
    obtain ⟨key, val⟩ := kv
    obtain ⟨blob, hb⟩ := ih (fun k a hk => h k a (List.mem_cons_of_mem _ hk))
    cases val with
    | none =>
      cases hl : lookupField fields key with
      | none => exact ⟨blob, by simp [writeDatasets, hl, hb]⟩
      | some outName => exact ⟨blob, by simp [writeDatasets, hl, hb]⟩
    | some arr =>
      have hz : arr.shape0 ≠ 0 := h key arr (List.mem_cons_self _ _)
      cases hl : lookupField fields key with
      | none => exact ⟨blob, by simp [writeDatasets, hl, hb]⟩
      | some outName =>
        refine ⟨⟨outName, arr.shape, arr.dtype, 1 :: arr.restShape, opts, arr.payload⟩ :: blob, ?_⟩
        simp [writeDatasets, hl, hz, hb, Except.map]

lemma writeDatasets_names {fields : List (String × String)} {opts : CompressionOpts}
    {data : Batch} {blob : Blob} (h : writeDatasets fields opts data = .ok blob) :
    blob.map Dataset.name = presentMappedNames fields data := by
  induction data generalizing blob with
  | nil =>
    simp only [writeDatasets] at h
    cases h
    simp [presentMappedNames]
  | cons kv rest ih =>
    obtain ⟨key, val⟩ := kv
    cases val with
    | none =>
      cases hl : lookupField fields key with
      | none =>
        simp only [writeDatasets, hl] at h
        simpa [presentMappedNames, hl] using ih h
      | some outName =>
        simp only [writeDatasets, hl] at h
        simpa [presentMappedNames, hl] using ih h
    | some arr =>
      cases hl : lookupField fields key with
      | none =>
        simp only [writeDatasets, hl] at h
        simpa [presentMappedNames, hl] using ih h
      | some outName =>
        simp only [writeDatasets, hl] at h
        by_cases hz : arr.shape0 = 0
        · simp [hz] at h
        · simp only [hz, if_false] at h
          cases hrest : writeDatasets fields opts rest with
          | error e => rw [hrest] at h; simp [Except.map] at h
          | ok blob2 =>
            rw [hrest] at h
            simp only [Except.map] at h
            cases h
            simpa [presentMappedNames, hl] using ih hrest

lemma writeDatasets_mem {fields : List (String × String)} {opts : CompressionOpts}
    {data : Batch} {blob : Blob} (h : writeDatasets fields opts data = .ok blob)
    {key outName : String} {arr : NDArray}
    (hmem : (key, some arr) ∈ data) (hl : lookupField fields key = some outName) :
    (⟨outName, arr.shape, arr.dtype, 1 :: arr.restShape, opts, arr.payload⟩ : Dataset) ∈ blob := by
  induction data generalizing blob with
  | nil => simp at hmem
  | cons kv rest ih =>
    obtain ⟨key2, val2⟩ := kv
    rcases List.mem_cons.mp hmem with hhead | htail
    · cases hhead
      simp only [writeDatasets, hl] at h
      by_cases hz : arr.shape0 = 0
      · simp [hz] at h
      · simp only [hz, if_false] at h
        cases hrest : writeDatasets fields opts rest with
        | error e => rw [hrest] at h; simp [Except.map] at h
        | ok blob2 =>
          rw [hrest] at h
          simp only [Except.map] at h
          cases h
          exact List.mem_cons_self _ _
    · cases val2 with
      | none =>
        cases hl2 : lookupField fields key2 with
        | none => simp only [writeDatasets, hl2] at h; exact ih h htail
        | some o2 => simp only [writeDatasets, hl2] at h; exact ih h htail
      | some arr2 =>
        cases hl2 : lookupField fields key2 with
        | none => simp only [writeDatasets, hl2] at h; exact ih h htail
        | some o2 =>
          simp only [writeDatasets, hl2] at h
          by_cases hz : arr2.shape0 = 0
          · simp [hz] at h
          · simp only [hz, if_false] at h
            cases hrest : writeDatasets fields opts rest with
            | error e => rw [hrest] at h; simp [Except.map] at h
            | ok blob2 =>
              rw [hrest] at h
              simp only [Except.map] at h
              cases h
              exact List.mem_cons_of_mem _ (ih hrest htail)

lemma writeDatasets_compression {fields : List (String × String)} {opts : CompressionOpts}
    {data : Batch} {blob : Blob} (h : writeDatasets fields opts data = .ok blob) :
    ∀ ds ∈ blob, ds.compression = opts := by
  induction data generalizing blob with
  | nil =>
    simp only [writeDatasets] at h
    cases h
    intro ds hds
    simp at hds
  | cons kv rest ih =>
    obtain ⟨key, val⟩ := kv
    cases val with
    | none =>
      cases hl : lookupField fields key with
      | none => simp only [writeDatasets, hl] at h; exact ih h
      | some o => simp only [writeDatasets, hl] at h; exact ih h
    | some arr =>
      cases hl : lookupField fields key with
      | none => simp only [writeDatasets, hl] at h; exact ih h
      | some o =>
        simp only [writeDatasets, hl] at h
        by_cases hz : arr.shape0 = 0
        · simp [hz] at h
        · simp only [hz, if_false] at h
          cases hrest : writeDatasets fields opts rest with
          | error e => rw [hrest] at h; simp [Except.map] at h
          | ok blob2 =>
            rw [hrest] at h
            simp only [Except.map] at h
            cases h
            intro ds hds
            rcases List.mem_cons.mp hds with hEq | hmem2
            · rw [hEq]
            · exact ih hrest ds hmem2

lemma writeDatasets_error_of_all_zero {fields : List (String × String)} {opts : CompressionOpts}
    {data : Batch}
    (hmapped : ∀ k a, (k, some a) ∈ data → (lookupField fields k).isSome)
    (hzero : ∀ k a, (k, some a) ∈ data → a.shape0 = 0)
    {k0 : String} {a0 : NDArray} (hmem : (k0, some a0) ∈ data) :
    writeDatasets fields opts data = .error .indexError := by
  induction data with
  | nil => simp at hmem
  | cons kv rest ih =>
    obtain ⟨key, val⟩ := kv
    cases val with
    | none =>
      have htail : (k0, some a0) ∈ rest := by
        rcases List.mem_cons.mp hmem with hhead | htail
        · cases hhead
        · exact htail
      have := ih (fun k a hk => hmapped k a (List.mem_cons_of_mem _ hk))
        (fun k a hk => hzero k a (List.mem_cons_of_mem _ hk)) htail
      cases hl : lookupField fields key with
      | none => simp only [writeDatasets, hl]; exact this
      | some o => simp only [writeDatasets, hl]; exact this
    | some arr =>
      have hs := hmapped key arr (List.mem_cons_self _ _)
      obtain ⟨o, ho⟩ := Option.isSome_iff_exists.mp hs
      have hz := hzero key arr (List.mem_cons_self _ _)
      simp only [writeDatasets, ho]
      simp [hz]

lemma processBatch_eq_writeDatasets {self : Hdf5BinarySerializer} {data : Batch}
    (hdepth : (depthOfDataBlocks data).dedup.length = 1)
    (hmm : mismatchingEntries data self.hdf5Fields = []) :
    self.processBatch data = writeDatasets self.hdf5Fields self.compressionOptions data := by
  unfold Hdf5BinarySerializer.processBatch
  rw [if_neg (by simp [hdepth]), if_neg (by simp [hmm])]

lemma processBatch_ok_of_writeDatasets {self : Hdf5BinarySerializer} {data : Batch} {blob : Blob}
    (h : self.processBatch data = .ok blob) :
    writeDatasets self.hdf5Fields self.compressionOptions data = .ok blob := by
  unfold Hdf5BinarySerializer.processBatch at h
  split at h
  · cases h
  · split at h
    · cases h
    · exact h

lemma call_cons_ok {self : Hdf5BinarySerializer} {data : Batch} {rest : List Batch}
    {blob : Blob} {blobs : List Blob}
    (h1 : self.processBatch data = .ok blob) (h2 : self.call rest = .ok blobs) :
    self.call (data :: rest) = .ok (blob :: blobs) := by
  rw [Hdf5BinarySerializer.call, h1, h2]

/-- C1 (amended): construction fails with the configuration error exactly when the
serializer's configuration section is missing; an unrecognized compression option value
does not fail construction but silently resolves to the empty compression options. -/
theorem init_configuration_error_iff_missing (p : DataSerializerParameters)
    (s : String) (level : Int)
    (hs : s ∉ ["gzip", "gzip_with_shuffle", "bitshuffle_with_lz4", "bitshuffle_with_zstd", "zfp"]) :
    (Hdf5BinarySerializer.init p = .error .configurationError ↔ p.Hdf5BinarySerializer = none)
    ∧ resolveCompressionOptions s level = .empty := by
  simp only [List.mem_cons, List.not_mem_nil, or_false, not_or] at hs
  obtain ⟨h1, h2, h3, h4, h5⟩ := hs
  constructor
  · cases hp : p.Hdf5BinarySerializer with
    | none => simp [Hdf5BinarySerializer.init, hp]
    | some cfg => simp [Hdf5BinarySerializer.init, hp]
  · unfold resolveCompressionOptions
    rw [if_neg h1, if_neg h2, if_neg h3, if_neg h4, if_neg h5]

/-- C1 witness: the configuration with a missing serializer section fails construction,
and the unrecognized value banana resolves to the empty compression options. -/
theorem init_configuration_error_iff_missing_witness :
    ("banana") ∉ ["gzip", "gzip_with_shuffle", "bitshuffle_with_lz4", "bitshuffle_with_zstd", "zfp"]
    ∧ ((Hdf5BinarySerializer.init ⟨none⟩ = .error .configurationError
          ↔ (⟨none⟩ : DataSerializerParameters).Hdf5BinarySerializer = none)
        ∧ resolveCompressionOptions ("banana") 0 = .empty) :=
  ⟨by decide, init_configuration_error_iff_missing ⟨none⟩ ("banana") 0 (by decide)⟩

/-- C1 counterexample: constructing with the unrecognized compression value banana
succeeds, storing the empty compression options, instead of failing with a configuration
error as the claim states. -/
theorem init_unrecognized_compression_accepted :
    Hdf5BinarySerializer.init ⟨some ⟨"banana", 4, [("a", "A")]⟩⟩
      = .ok ⟨.empty, [("a", "A")]⟩ := by decide

/-- C3 (confirmed): a batch holding two present arrays whose axis-0 lengths differ fails
the depth-consistency check: `processBatch` signals the inconsistent-depth error and
produces no blob. -/
theorem processBatch_inconsistent_depth (self : Hdf5BinarySerializer) (data : Batch)
    (k1 k2 : String) (a1 a2 : NDArray)
    (h1 : (k1, some a1) ∈ data) (h2 : (k2, some a2) ∈ data)
    (hne : a1.shape0 ≠ a2.shape0) :
    self.processBatch data = .error .inconsistentDepth := by
  unfold Hdf5BinarySerializer.processBatch
  rw [if_pos (dedup_length_ne_one_of_mem_ne (mem_depthOfDataBlocks h1)
    (mem_depthOfDataBlocks h2) hne)]

/-- C3 witness: a batch with present arrays of depths 3 and 4 fails with the
inconsistent-depth error. -/
theorem processBatch_inconsistent_depth_witness :
    Hdf5BinarySerializer.processBatch ⟨.empty, [("x", "X"), ("y", "Y")]⟩
      [(("x"), some ⟨3, [], "int32", []⟩), (("y"), some ⟨4, [], "int32", []⟩)]
      = .error .inconsistentDepth :=
  processBatch_inconsistent_depth _ _ ("x") ("y") ⟨3, [], "int32", []⟩ ⟨4, [], "int32", []⟩
    (by decide) (by decide) (by decide)

/-- C4 (amended): for every batch that passes the depth-consistency check and whose key
set contains a key not present in the field mapping, `processBatch` fails with the
unmapped-fields error naming exactly the batch keys missing from the mapping (and at
least that one key), and no blob is produced. -/
theorem processBatch_unmapped_fields (self : Hdf5BinarySerializer) (data : Batch)
    (hdepth : (depthOfDataBlocks data).dedup.length = 1)
    (k : String) (hk : k ∈ data.map Prod.fst)
    (hunmapped : lookupField self.hdf5Fields k = none) :
    self.processBatch data
        = .error (.unmappedFields (mismatchingEntries data self.hdf5Fields))
    ∧ mismatchingEntries data self.hdf5Fields ≠ []
    ∧ ∀ x, x ∈ mismatchingEntries data self.hdf5Fields
        ↔ (x ∈ data.map Prod.fst ∧ lookupField self.hdf5Fields x = none) := by
  have hkmem : k ∈ mismatchingEntries data self.hdf5Fields := by
    unfold mismatchingEntries
    exact List.mem_filter.mpr ⟨hk, by simp [hunmapped]⟩
  have hne : mismatchingEntries data self.hdf5Fields ≠ [] := by
    intro h0
    rw [h0] at hkmem
    simp at hkmem
  refine ⟨?_, hne, ?_⟩
  · unfold Hdf5BinarySerializer.processBatch
    rw [if_neg (by simp [hdepth]), if_pos (fun h0 => hne (List.length_eq_zero.mp h0))]
  · intro x
    unfold mismatchingEntries
    rw [List.mem_filter]
    simp [Option.isNone_iff_eq_none]

/-- C4 witness: with mapping a ↦ A, a batch with keys a and foo of equal depths fails
with the unmapped-fields error naming exactly foo. -/
theorem processBatch_unmapped_fields_witness :
    Hdf5BinarySerializer.processBatch ⟨.empty, [("a", "A")]⟩
      [(("a"), some ⟨3, [], "int32", [1, 2, 3]⟩), (("foo"), some ⟨3, [], "int32", [4, 5, 6]⟩)]
      = .error (.unmappedFields ["foo"]) :=
  ((processBatch_unmapped_fields ⟨.empty, [("a", "A")]⟩
      [(("a"), some ⟨3, [], "int32", [1, 2, 3]⟩), (("foo"), some ⟨3, [], "int32", [4, 5, 6]⟩)]
      (by decide) ("foo") (by decide) (by decide)).1).trans (by decide)

/-- C4 counterexample: the batch holding the single absent entry named foo contains the
unmapped key foo, yet `processBatch` fails with the inconsistent-depth error (the depth
check runs first), not with the unmapped-fields error the claim requires. -/
theorem processBatch_unmapped_key_depth_error_first :
    lookupField [("a", "A")] ("foo") = none
    ∧ Hdf5BinarySerializer.processBatch ⟨.empty, [("a", "A")]⟩ [(("foo"), none)]
        = .error .inconsistentDepth := by decide

/-- C9 (confirmed): a batch with zero present fields, the empty batch included, yields an
empty depth list whose value set has size 0 ≠ 1, so `processBatch` signals the
inconsistent-depth error and produces no blob. -/
theorem processBatch_no_present_fields_rejected (self : Hdf5BinarySerializer) (data : Batch)
    (h : ∀ kv ∈ data, kv.2 = (none : Option NDArray)) :
    self.processBatch data = .error .inconsistentDepth := by
  have hd : depthOfDataBlocks data = [] := by
    unfold depthOfDataBlocks
    refine List.filterMap_eq_nil_iff.mpr (fun kv hkv => ?_)
    rw [h kv hkv]
    rfl
  unfold Hdf5BinarySerializer.processBatch
  rw [if_pos (by rw [hd]; decide)]

/-- C9 witness: both the empty batch and a batch holding only an absent field are
rejected with the inconsistent-depth error. -/
theorem processBatch_no_present_fields_rejected_witness :
    Hdf5BinarySerializer.processBatch ⟨.empty, [("a", "A")]⟩ []
      = .error .inconsistentDepth
    ∧ Hdf5BinarySerializer.processBatch ⟨.empty, [("a", "A")]⟩ [(("a"), none)]
      = .error .inconsistentDepth :=
  ⟨processBatch_no_present_fields_rejected _ [] (by decide),
   processBatch_no_present_fields_rejected _ [(("a"), none)] (by decide)⟩

/-- C10 (confirmed): a batch with at least one present array in which every present array
has axis-0 length 0 passes both validation checks (the depth value set is exactly the
singleton of 0 and every key is mapped), but the writer's chunk computation
`data_block[0].shape` indexes the array's first record and fails, so no blob is
produced. -/
theorem processBatch_zero_depth_passes_validation_fails_write
    (self : Hdf5BinarySerializer) (data : Batch)
    (hne : depthOfDataBlocks data ≠ [])
    (hzero : ∀ d ∈ depthOfDataBlocks data, d = 0)
    (hmm : mismatchingEntries data self.hdf5Fields = []) :
    (depthOfDataBlocks data).dedup.length = 1
    ∧ self.processBatch data = .error .indexError := by
  have h0 : (0 : Nat) ∈ depthOfDataBlocks data := by
    cases hd : depthOfDataBlocks data with
    | nil => exact absurd hd hne
    | cons d t =>
      have : d = 0 := hzero d (by rw [hd]; exact List.mem_cons_self _ _)
      rw [← this]
      exact List.mem_cons_self _ _
  have hdepth : (depthOfDataBlocks data).dedup.length = 1 :=
    dedup_length_one_of_all_eq h0 hzero
  obtain ⟨k0, a0, hmem, _⟩ := of_mem_depthOfDataBlocks h0
  refine ⟨hdepth, ?_⟩
  rw [processBatch_eq_writeDatasets hdepth hmm]
  exact writeDatasets_error_of_all_zero
    (fun k a hk => lookupField_isSome_of_mismatching_nil hmm hk)
    (fun k a hk => hzero _ (mem_depthOfDataBlocks hk)) hmem

/-- C10 witness: a batch whose single present array has axis-0 length 0 passes the depth
check yet fails with the index error. -/
theorem processBatch_zero_depth_passes_validation_fails_write_witness :
    (depthOfDataBlocks [(("a"), some ⟨0, [], "int32", []⟩)]).dedup.length = 1
    ∧ Hdf5BinarySerializer.processBatch ⟨.empty, [("a", "A")]⟩
        [(("a"), some ⟨0, [], "int32", []⟩)] = .error .indexError :=
  processBatch_zero_depth_passes_validation_fails_write ⟨.empty, [("a", "A")]⟩
    [(("a"), some ⟨0, [], "int32", []⟩)] (by decide) (by decide) (by decide)

/-- C2 (amended): when a batch is serialized successfully, the datasets of the resulting
container are created in the batch's own key iteration order, restricted to present,
mapped entries — so the output dataset ordering is determined by the configuration
together with the batch's key order, not by the field mapping's iteration order alone. -/
theorem processBatch_dataset_order_follows_batch (self : Hdf5BinarySerializer)
    (data : Batch) (blob : Blob) (h : self.processBatch data = .ok blob) :
    blob.map Dataset.name = presentMappedNames self.hdf5Fields data :=
  writeDatasets_names (processBatch_ok_of_writeDatasets h)

/-- C2 witness: a successfully serialized two-field batch produces datasets named in its
own key order. -/
theorem processBatch_dataset_order_follows_batch_witness :
    [(⟨"D", [2], "int32", [1], .empty, [1, 2]⟩ : Dataset),
     ⟨"C", [2], "int32", [1], .empty, [3, 4]⟩].map Dataset.name
      = presentMappedNames [("c", "C"), ("d", "D")]
          [(("d"), some ⟨2, [], "int32", [1, 2]⟩), (("c"), some ⟨2, [], "int32", [3, 4]⟩)] :=
  processBatch_dataset_order_follows_batch ⟨.empty, [("c", "C"), ("d", "D")]⟩
    [(("d"), some ⟨2, [], "int32", [1, 2]⟩), (("c"), some ⟨2, [], "int32", [3, 4]⟩)]
    [⟨"D", [2], "int32", [1], .empty, [1, 2]⟩, ⟨"C", [2], "int32", [1], .empty, [3, 4]⟩]
    (by decide)

/-- C2 counterexample: with field mapping a ↦ A, b ↦ B and a batch whose keys arrive in
the order b, a, the datasets are created in the order B, A — the batch's own key order —
not in the mapping's iteration order A, B as the claim states. -/
theorem processBatch_dataset_order_not_mapping_order :
    Except.map (fun blob => blob.map Dataset.name)
        (Hdf5BinarySerializer.processBatch ⟨.empty, [("a", "A"), ("b", "B")]⟩
          [(("b"), some ⟨1, [], "int32", [7]⟩), (("a"), some ⟨1, [], "int32", [8]⟩)])
      = .ok [("B"), ("A")]
    ∧ [("B"), ("A")] ≠ [("a", "A"), ("b", "B")].map Prod.snd := by decide

/-- C5 (amended): for any finite sequence of batches that each pass both validation
checks and whose present arrays all have axis-0 length at least 1, the pipeline yields
exactly one blob per batch, in input order, the i-th blob being the serialization of the
i-th batch. -/
theorem call_one_blob_per_valid_batch (self : Hdf5BinarySerializer) (stream : List Batch)
    (h : ∀ data ∈ stream,
      (depthOfDataBlocks data).dedup.length = 1
      ∧ mismatchingEntries data self.hdf5Fields = []
      ∧ ∀ d ∈ depthOfDataBlocks data, d ≠ 0) :
    ∃ blobs, self.call stream = .ok blobs
      ∧ blobs.length = stream.length
      ∧ List.Forall₂ (fun data blob => self.processBatch data = .ok blob) stream blobs := by
  induction stream with
  | nil => exact ⟨[], rfl, rfl, List.Forall₂.nil⟩
  | cons data rest ih =>
    obtain ⟨hd, hm, hz⟩ := h data (List.mem_cons_self _ _)
    obtain ⟨blob, hblob⟩ :=
      writeDatasets_ok (fun k a hka => hz _ (mem_depthOfDataBlocks hka))
    have hpb : self.processBatch data = .ok blob :=
      (processBatch_eq_writeDatasets hd hm).trans hblob
    obtain ⟨blobs, hcall, hlen, hfa⟩ := ih (fun d hd2 => h d (List.mem_cons_of_mem _ hd2))
    exact ⟨blob :: blobs, call_cons_ok hpb hcall, by simp [hlen], List.Forall₂.cons hpb hfa⟩

/-- C5 witness: a two-batch stream of validation-passing, depth-1 and depth-2 batches
yields exactly two blobs, in order. -/
theorem call_one_blob_per_valid_batch_witness :
    (∀ data ∈ ([[(("a"), some ⟨1, [], "int32", [9]⟩)],
        [(("a"), some ⟨2, [], "int32", [1, 2]⟩)]] : List Batch),
      (depthOfDataBlocks data).dedup.length = 1
      ∧ mismatchingEntries data [("a", "A")] = []
      ∧ ∀ d ∈ depthOfDataBlocks data, d ≠ 0)
    ∧ ∃ blobs,
        Hdf5BinarySerializer.call ⟨.empty, [("a", "A")]⟩
            [[(("a"), some ⟨1, [], "int32", [9]⟩)], [(("a"), some ⟨2, [], "int32", [1, 2]⟩)]]
          = .ok blobs
        ∧ blobs.length
            = ([[(("a"), some ⟨1, [], "int32", [9]⟩)],
                [(("a"), some ⟨2, [], "int32", [1, 2]⟩)]] : List Batch).length
        ∧ List.Forall₂
            (fun data blob =>
              Hdf5BinarySerializer.processBatch ⟨.empty, [("a", "A")]⟩ data = .ok blob)
            [[(("a"), some ⟨1, [], "int32", [9]⟩)], [(("a"), some ⟨2, [], "int32", [1, 2]⟩)]]
            blobs :=
  ⟨by decide, call_one_blob_per_valid_batch ⟨.empty, [("a", "A")]⟩
    [[(("a"), some ⟨1, [], "int32", [9]⟩)], [(("a"), some ⟨2, [], "int32", [1, 2]⟩)]]
    (by decide)⟩

/-- C5 counterexample: a single batch that passes both validation checks but whose array
has axis-0 length 0 makes the pipeline fail with the index error, yielding zero blobs
for one input batch instead of exactly one. -/
theorem call_validated_zero_depth_no_blob :
    (depthOfDataBlocks [(("a"), some ⟨0, [], "float32", []⟩)]).dedup.length = 1
    ∧ mismatchingEntries [(("a"), some ⟨0, [], "float32", []⟩)] [("a", "A")] = []
    ∧ Hdf5BinarySerializer.call ⟨.empty, [("a", "A")]⟩
        [[(("a"), some ⟨0, [], "float32", []⟩)]] = .error .indexError := by decide

/-- C6 (confirmed): every present array written as a dataset is created under the mapped
output name, with shape equal to the full array shape, dtype equal to the array's element
type, chunk shape (1,) followed by the array's trailing dimensions — one record per
chunk — and the array's full contents. -/
theorem processBatch_dataset_shape_dtype_chunks (self : Hdf5BinarySerializer)
    (data : Batch) (blob : Blob) (h : self.processBatch data = .ok blob)
    (key outName : String) (arr : NDArray)
    (hmem : (key, some arr) ∈ data) (hl : lookupField self.hdf5Fields key = some outName) :
    (⟨outName, arr.shape0 :: arr.restShape, arr.dtype, 1 :: arr.restShape,
        self.compressionOptions, arr.payload⟩ : Dataset) ∈ blob :=
  writeDatasets_mem (processBatch_ok_of_writeDatasets h) hmem hl

/-- C6 witness: a 2 × 3 float array mapped from img to image is written as the dataset
named image with shape [2, 3] and chunks [1, 3]. -/
theorem processBatch_dataset_shape_dtype_chunks_witness :
    (⟨"image", [2, 3], "float32", [1, 3], .empty, [1, 2, 3, 4, 5, 6]⟩ : Dataset)
      ∈ [(⟨"image", [2, 3], "float32", [1, 3], .empty, [1, 2, 3, 4, 5, 6]⟩ : Dataset)] :=
  processBatch_dataset_shape_dtype_chunks ⟨.empty, [("img", "image")]⟩
    [(("img"), some ⟨2, [3], "float32", [1, 2, 3, 4, 5, 6]⟩)]
    [⟨"image", [2, 3], "float32", [1, 3], .empty, [1, 2, 3, 4, 5, 6]⟩]
    (by decide) ("img") ("image") ⟨2, [3], "float32", [1, 2, 3, 4, 5, 6]⟩
    (by decide) (by decide)

/-- C7 (amended): for every batch in which some mapped field is explicitly absent, every
key is mapped, the present fields agree on a common depth of at least 1, and no present
field maps to the absent field's output name, processing succeeds and produces a blob
containing no dataset under the absent field's output name; moreover an absent entry is
excluded from the depth-consistency computation. -/
theorem processBatch_absent_field_omitted (self : Hdf5BinarySerializer) (data : Batch)
    (k outName : String)
    (habs : (k, (none : Option NDArray)) ∈ data)
    (hmap : lookupField self.hdf5Fields k = some outName)
    (hdepth : (depthOfDataBlocks data).dedup.length = 1)
    (hmm : mismatchingEntries data self.hdf5Fields = [])
    (hpos : ∀ d ∈ depthOfDataBlocks data, d ≠ 0)
    (hother : outName ∉ presentMappedNames self.hdf5Fields data) :
    (∃ blob, self.processBatch data = .ok blob ∧ outName ∉ blob.map Dataset.name)
    ∧ ∀ k2 : String, depthOfDataBlocks ((k2, none) :: data) = depthOfDataBlocks data := by
  obtain ⟨blob, hblob⟩ :=
    writeDatasets_ok (fun k2 a hka => hpos _ (mem_depthOfDataBlocks hka))
  have hpb : self.processBatch data = .ok blob :=
    (processBatch_eq_writeDatasets hdepth hmm).trans hblob
  refine ⟨⟨blob, hpb, ?_⟩, fun k2 => rfl⟩
  rw [writeDatasets_names hblob]
  exact hother

/-- C7 witness: with mapping a ↦ A, b ↦ B, field a absent and field b a depth-2 array,
processing succeeds and the container holds no dataset named A. -/
theorem processBatch_absent_field_omitted_witness :
    ((("a"), (none : Option NDArray))
        ∈ ([(("a"), none), (("b"), some ⟨2, [], "int32", [7, 8]⟩)] : Batch))
    ∧ ((∃ blob,
          Hdf5BinarySerializer.processBatch ⟨.empty, [("a", "A"), ("b", "B")]⟩
              [(("a"), none), (("b"), some ⟨2, [], "int32", [7, 8]⟩)] = .ok blob
          ∧ ("A") ∉ blob.map Dataset.name)
        ∧ ∀ k2 : String,
            depthOfDataBlocks ((k2, none) :: [(("a"), none), (("b"), some ⟨2, [], "int32", [7, 8]⟩)])
              = depthOfDataBlocks [(("a"), none), (("b"), some ⟨2, [], "int32", [7, 8]⟩)]) :=
  ⟨by decide,
   processBatch_absent_field_omitted ⟨.empty, [("a", "A"), ("b", "B")]⟩
     [(("a"), none), (("b"), some ⟨2, [], "int32", [7, 8]⟩)] ("a") ("A")
     (by decide) (by decide) (by decide) (by decide) (by decide) (by decide)⟩

/-- C7 counterexample: with mapping a ↦ A, b ↦ B, field a explicitly absent and the only
present field b of axis-0 length 0, the present fields agree on depth and validation
passes, yet processing fails with the index error and produces no blob, contrary to the
claim that it succeeds. -/
theorem processBatch_absent_field_zero_depth_fails :
    ((("a"), (none : Option NDArray))
        ∈ ([(("a"), none), (("b"), some ⟨0, [], "float32", []⟩)] : Batch))
    ∧ lookupField [("a", "A"), ("b", "B")] ("a") = some ("A")
    ∧ (depthOfDataBlocks [(("a"), none), (("b"), some ⟨0, [], "float32", []⟩)]).dedup.length = 1
    ∧ Hdf5BinarySerializer.processBatch ⟨.empty, [("a", "A"), ("b", "B")]⟩
        [(("a"), none), (("b"), some ⟨0, [], "float32", []⟩)] = .error .indexError := by decide

/-- C8 (confirmed): the compression options are resolved at construction by the fixed
mapping — gzip ↦ deflate at the configured level with shuffle disabled,
gzip_with_shuffle ↦ deflate at the configured level with byte-shuffle enabled,
bitshuffle_with_lz4 and bitshuffle_with_zstd ↦ bitshuffle with the lz4 or zstd codec at
the configured level, zfp ↦ the zfp codec with default parameters, level ignored — the
constructed instance stores exactly the options resolved from its configuration, and
that stored option set is applied to every dataset the instance writes. -/
theorem compression_resolved_once_applied_uniformly (level : Int)
    (cfg : Hdf5BinarySerializerParameters) (self : Hdf5BinarySerializer)
    (data : Batch) (blob : Blob)
    (hinit : Hdf5BinarySerializer.init ⟨some cfg⟩ = .ok self)
    (hrun : self.processBatch data = .ok blob) :
    resolveCompressionOptions ("gzip") level = .gzip level false
    ∧ resolveCompressionOptions ("gzip_with_shuffle") level = .gzip level true
    ∧ resolveCompressionOptions ("bitshuffle_with_lz4") level = .bitshuffle ("lz4") level
    ∧ resolveCompressionOptions ("bitshuffle_with_zstd") level = .bitshuffle ("zstd") level
    ∧ resolveCompressionOptions ("zfp") level = .zfp
    ∧ self.compressionOptions = resolveCompressionOptions cfg.compression cfg.compression_level
    ∧ ∀ ds ∈ blob, ds.compression = self.compressionOptions := by
  have hself : self
      = ⟨resolveCompressionOptions cfg.compression cfg.compression_level, cfg.fields⟩ := by
    unfold Hdf5BinarySerializer.init at hinit
    exact (Except.ok.inj hinit).symm
  refine ⟨by simp [resolveCompressionOptions], by simp [resolveCompressionOptions],
    by simp [resolveCompressionOptions], by simp [resolveCompressionOptions],
    by simp [resolveCompressionOptions], by rw [hself],
    writeDatasets_compression (processBatch_ok_of_writeDatasets hrun)⟩

/-- C8 witness: an instance constructed with gzip_with_shuffle at level 6 stores the
deflate-with-shuffle options and writes its dataset with exactly those options. -/
theorem compression_resolved_once_applied_uniformly_witness :
    resolveCompressionOptions ("gzip") 6 = .gzip 6 false
    ∧ resolveCompressionOptions ("gzip_with_shuffle") 6 = .gzip 6 true
    ∧ resolveCompressionOptions ("bitshuffle_with_lz4") 6 = .bitshuffle ("lz4") 6
    ∧ resolveCompressionOptions ("bitshuffle_with_zstd") 6 = .bitshuffle ("zstd") 6
    ∧ resolveCompressionOptions ("zfp") 6 = .zfp
    ∧ (⟨.gzip 6 true, [("a", "A")]⟩ : Hdf5BinarySerializer).compressionOptions
        = resolveCompressionOptions
            (⟨"gzip_with_shuffle", 6, [("a", "A")]⟩ : Hdf5BinarySerializerParameters).compression
            (⟨"gzip_with_shuffle", 6, [("a", "A")]⟩ : Hdf5BinarySerializerParameters).compression_level
    ∧ ∀ ds ∈ [(⟨"A", [1], "int32", [1], .gzip 6 true, [3]⟩ : Dataset)],
        ds.compression = (⟨.gzip 6 true, [("a", "A")]⟩ : Hdf5BinarySerializer).compressionOptions :=
  compression_resolved_once_applied_uniformly 6 ⟨"gzip_with_shuffle", 6, [("a", "A")]⟩
    ⟨.gzip 6 true, [("a", "A")]⟩ [(("a"), some ⟨1, [], "int32", [3]⟩)]
    [⟨"A", [1], "int32", [1], .gzip 6 true, [3]⟩] (by decide) (by decide)
